import Mathlib

/-!
Verification of the Pulsegen-web backend video pipeline.

Shallow embedding of the relevant source files:
* `src/utils/videoProcessor.js` — sensitivity-analysis engine, metadata
  extraction, transcoding, thumbnailing;
* `src/models/Video.js` — the Video record schema, `canBeViewedBy`,
  `updateProgress`;
* `src/routes/users.js` — the processing pipeline (`processVideoAsync`),
  the `GET /:id/stream` route and the `POST /:id/reanalyze` route;
* `src/server.js` — socket registration (`app.set('io', io)`).

JavaScript numbers are modelled as `ℚ` (all constants involved are exact
decimals), JS `Math.round` as Mathlib's `round` (both round half toward
positive infinity), and fallible JS operations as `Option`/`Except`.
`io.emit(...)` on an undefined handle models the thrown `TypeError` as an
`Except.error` carrying the state at the throw point.
-/

namespace Pulsegen

/-- Video.js `status` enum: uploading, processing, completed, failed, archived. -/
inductive VStatus
  | uploading
  | processing
  | completed
  | failed
  | archived
  deriving DecidableEq, Repr

/-- Video.js `sensitivityAnalysis.status` enum: pending, processing, completed, failed, skipped. -/
inductive SAStatus
  | pending
  | processing
  | completed
  | failed
  | skipped
  deriving DecidableEq, Repr

/-- Video.js `sensitivityAnalysis.result` enum: safe, flagged, under-review. -/
inductive SensResult
  | safe
  | flagged
  | underReview
  deriving DecidableEq, Repr

/-- Video.js `visibility` enum: private, organization, public. -/
inductive Visibility
  | privateVis
  | organizationVis
  | publicVis
  deriving DecidableEq, Repr

/-- User roles checked by the routes: admin, editor, viewer. -/
inductive Role
  | admin
  | editor
  | viewer
  deriving DecidableEq, Repr

/-- Per-frame analysis record produced by `analyzeFrame`
(videoProcessor.js 40-74); only the fields the engine aggregates. -/
structure FrameAnalysis where
  suspicionScore : ℚ
  brightness : ℚ
  contrast : ℚ
  deriving DecidableEq, Repr

/-- `analyzeFrame` (videoProcessor.js 46-68): suspicion starts at 0, +0.1 when
brightness is outside (50, 200), +0.1 when contrast exceeds 80, plus the
random factor, capped at 1.0.  Brightness, contrast and the `Math.random()*0.3`
perturbation are inputs of the embedding. -/
def analyzeFrame (brightness contrast randomFactor : ℚ) : FrameAnalysis :=
  let s1 : ℚ := if brightness < 50 ∨ brightness > 200 then 0 + 1/10 else 0
  let s2 : ℚ := if contrast > 80 then s1 + 1/10 else s1
  let s3 : ℚ := s2 + randomFactor
  { suspicionScore := min s3 1, brightness := brightness, contrast := contrast }

/-- `Math.round(x * 100) / 100` (videoProcessor.js 176): round to two decimals.
JS `Math.round` rounds half toward positive infinity, as does Mathlib's `round`. -/
def round2 (q : ℚ) : ℚ := ((round (q * 100) : ℤ) : ℚ) / 100

/-- The `totalSuspicion` accumulator of the aggregation loop (videoProcessor.js 143-151). -/
def totalSuspicionOf (analyses : List FrameAnalysis) : ℚ :=
  (analyses.map FrameAnalysis.suspicionScore).sum

/-- The `highSuspicionFrames` counter (videoProcessor.js 148-150):
frames with suspicion score above 0.6. -/
def highCountOf (analyses : List FrameAnalysis) : ℕ :=
  (analyses.filter (fun a => a.suspicionScore > 3/5)).length

/-- The classification branch of `analyzeSensitivity` (videoProcessor.js 157-171):
result plus (unrounded) confidence. -/
def classifyPair (avgSuspicion : ℚ) (highSuspicionFrames frameCount : ℕ) : SensResult × ℚ :=
  if avgSuspicion > 7/10 ∨ (highSuspicionFrames : ℚ) > (frameCount : ℚ) * (3/10) then
    (SensResult.flagged, min avgSuspicion (9/10))
  else if avgSuspicion > 2/5 ∨ 0 < highSuspicionFrames then
    (SensResult.underReview, min (avgSuspicion * (4/5)) (7/10))
  else
    (SensResult.safe, max (17/20) (49/50 - avgSuspicion))

/-- The success-path result object of `analyzeSensitivity`
(videoProcessor.js 173-195), restricted to the fields the claims mention. -/
structure SensitivityResults where
  status : SAStatus
  result : SensResult
  confidence : ℚ
  adult : Bool
  framesAnalyzed : ℕ
  errorMsg : Option String
  deriving DecidableEq, Repr

/-- Aggregation and classification (videoProcessor.js 137-195): average the
scored frames, classify, round the confidence to two decimals, flag `adult`
when the average suspicion exceeds 0.6. -/
def classifyResults (analyses : List FrameAnalysis) : SensitivityResults :=
  let frameCount := analyses.length
  let avgSuspicion := totalSuspicionOf analyses / (frameCount : ℚ)
  let rc := classifyPair avgSuspicion (highCountOf analyses) frameCount
  { status := SAStatus.completed
    result := rc.1
    confidence := round2 rc.2
    adult := decide (avgSuspicion > 3/5)
    framesAnalyzed := frameCount
    errorMsg := none }

/-- The catch-path result object of `analyzeSensitivity`
(videoProcessor.js 232-249): status failed, result defaulted to safe,
confidence 0, error message recorded. -/
def engineFailureResults (msg : String) : SensitivityResults :=
  { status := SAStatus.failed, result := SensResult.safe, confidence := 0,
    adult := false, framesAnalyzed := 0, errorMsg := some msg }

/-- The socket event names this core publishes. -/
inductive EventKind
  | sensProgress (progress : ℤ)
  | sensComplete
  | sensError
  | procProgress (progress : ℕ)
  | procComplete
  | procError
  deriving DecidableEq, Repr

/-- `io.emit(...)` broadcasts to every connected client;
`io.to(room).emit(...)` addresses one room. -/
inductive Address
  | broadcast
  | room (name : String)
  deriving DecidableEq, Repr

/-- One published socket event. -/
structure Emission where
  addr : Address
  videoId : String
  kind : EventKind
  deriving DecidableEq, Repr

/-- The events emitted from inside the sensitivity-analysis engine. -/
def isEngineEv : EventKind → Bool
  | .sensProgress _ => true
  | .sensComplete => true
  | .sensError => true
  | _ => false

/-- socket.io delivery: a broadcast reaches every connected listener,
a room emission only the listeners joined to that room (server.js 60-71). -/
def deliveredTo (e : Emission) (listenerRoom : String) : Bool :=
  match e.addr with
  | .broadcast => true
  | .room r => r = listenerRoom

/-- State threaded through an engine run: events published so far, the set of
existing scratch directories, and the `framesDir` local variable
(videoProcessor.js 77). -/
structure EngineState where
  trace : List Emission
  fs : List String
  framesDir : Option String
  deriving DecidableEq, Repr

/-- `fs.mkdir(dir, { recursive: true })` (videoProcessor.js 13). -/
def mkdirRec (d : String) (fs : List String) : List String :=
  if d ∈ fs then fs else d :: fs

/-- `fs.rmdir(dir, { recursive: true }).catch(...)` (videoProcessor.js 198, 221). -/
def rmdirRec (d : String) (fs : List String) : List String :=
  fs.filter (fun x => x ≠ d)

/-- `io.emit(name, payload)`: appends the event when the handle is defined;
on an undefined handle the property access throws a TypeError, modelled as
`Except.error` carrying the state at the throw point. -/
def emitE (sinkOk : Bool) (e : Emission) (st : EngineState) : Except EngineState EngineState :=
  if sinkOk then .ok { st with trace := st.trace ++ [e] } else .error st

/-- A `sensitivity-analysis-progress` emission; `io.emit` is unaddressed,
hence `broadcast` (videoProcessor.js 19, 81, 88, 103, 122, 130). -/
def sensProgressEv (vid : String) (p : ℤ) : Emission :=
  { addr := Address.broadcast, videoId := vid, kind := EventKind.sensProgress p }

/-- Oracle for one engine run: whether the ffmpeg frame-extraction subprocess
succeeds, and per extracted frame either `some (brightness, contrast,
randomFactor)` or `none` when sharp fails on that frame (frame skipped). -/
structure RunOutcome where
  extractOk : Bool
  frames : List (Option (ℚ × ℚ × ℚ))
  deriving DecidableEq, Repr

/-- The per-frame scoring loop (videoProcessor.js 113-128): score each frame
(skipping failures), emit `40 + Math.round(processed/total*40)` progress
after each frame. -/
def scoreLoop (sinkOk : Bool) (vid : String) (total : ℕ) :
    List (Option (ℚ × ℚ × ℚ)) → ℕ → List FrameAnalysis → EngineState →
    Except EngineState (List FrameAnalysis × EngineState)
  | [], _, acc, st => .ok (acc, st)
  | f :: rest, processed, acc, st =>
    let acc2 := match f with
      | some (b, c, r) => acc ++ [analyzeFrame b c r]
      | none => acc
    let processed2 := processed + 1
    let progress : ℤ := 40 + round (((processed2 : ℚ) / (total : ℚ)) * 40)
    match emitE sinkOk (sensProgressEv vid progress) st with
    | .error stE => .error stE
    | .ok st2 => scoreLoop sinkOk vid total rest processed2 acc2 st2

/-- The body of the `try` block of `analyzeSensitivity`
(videoProcessor.js 79-215), inlining `extractFrames` (11-38): progress events
at 0 and 10, assign `framesDir`, mkdir, progress 20, run ffmpeg (`extractOk`),
fail when no frames were extracted, progress 40, score the frames, progress
85, aggregate, remove the scratch directory, emit completion. -/
def engineBody (sinkOk : Bool) (o : RunOutcome) (vid dir : String) (st : EngineState) :
    Except EngineState (SensitivityResults × EngineState) :=
  match emitE sinkOk (sensProgressEv vid 0) st with
  | .error stE => .error stE
  | .ok st1 =>
  match emitE sinkOk (sensProgressEv vid 10) st1 with
  | .error stE => .error stE
  | .ok st2 =>
  let st3 : EngineState := { st2 with framesDir := some dir }
  let st4 : EngineState := { st3 with fs := mkdirRec dir st3.fs }
  match emitE sinkOk (sensProgressEv vid 20) st4 with
  | .error stE => .error stE
  | .ok st5 =>
  if o.extractOk = false then .error st5
  else if o.frames = [] then .error st5
  else
    match emitE sinkOk (sensProgressEv vid 40) st5 with
    | .error stE => .error stE
    | .ok st6 =>
    match scoreLoop sinkOk vid o.frames.length o.frames 0 [] st6 with
    | .error stE => .error stE
    | .ok (analyses, st7) =>
    match emitE sinkOk (sensProgressEv vid 85) st7 with
    | .error stE => .error stE
    | .ok st8 =>
    let results := classifyResults analyses
    let st9 : EngineState :=
      match st8.framesDir with
      | some d => { st8 with fs := rmdirRec d st8.fs }
      | none => st8
    match emitE sinkOk { addr := Address.broadcast, videoId := vid, kind := EventKind.sensComplete } st9 with
    | .error stE => .error stE
    | .ok st10 => .ok (results, st10)

/-- The `catch` block of `analyzeSensitivity` (videoProcessor.js 217-250):
remove the scratch directory when `framesDir` was assigned, emit the error
event (which itself throws when the handle is undefined), return the
degraded failure results. -/
def engineCatch (sinkOk : Bool) (vid : String) (stE : EngineState) :
    Except EngineState (SensitivityResults × EngineState) :=
  let st1 : EngineState :=
    match stE.framesDir with
    | some d => { stE with fs := rmdirRec d stE.fs }
    | none => stE
  match emitE sinkOk { addr := Address.broadcast, videoId := vid, kind := EventKind.sensError } st1 with
  | .error stQ => .error stQ
  | .ok st2 => .ok (engineFailureResults "analysis error", st2)

/-- `analyzeSensitivity(videoPath, videoId, io)` (videoProcessor.js 76-251):
`framesDir` starts null; the try body's failures are handled by the catch
block.  A resulting `Except.error` means the function itself threw (only
possible when the emit handle is undefined). -/
def analyzeSensitivityM (sinkOk : Bool) (o : RunOutcome) (vid dir : String) (st0 : EngineState) :
    Except EngineState (SensitivityResults × EngineState) :=
  match engineBody sinkOk o vid dir { st0 with framesDir := none } with
  | .ok r => .ok r
  | .error stE => engineCatch sinkOk vid stE

/-- Projection: the filesystem state after an engine run that returned. -/
def runFS (e : Except EngineState (SensitivityResults × EngineState)) : Option (List String) :=
  match e with
  | .ok (_, st) => some st.fs
  | .error _ => none

/-- The `sensitivityAnalysis` sub-record of a Video (Video.js 68-111),
restricted to status/result/confidence.  `result` and `confidence` default
to null. -/
structure SensRecord where
  saStatus : SAStatus
  result : Option SensResult
  confidence : Option ℚ
  deriving DecidableEq, Repr

/-- Schema defaults (Video.js 72, 77, 83): status pending, result null,
confidence null. -/
def initSensRecord : SensRecord :=
  { saStatus := SAStatus.pending, result := none, confidence := none }

/-- The Video record (Video.js 3-152), restricted to the fields the claims
mention. -/
structure VideoRec where
  id : String
  uploadedBy : String
  organizationId : String
  visibility : Visibility
  isActive : Bool
  status : VStatus
  processingProgress : ℤ
  filePath : String
  optimizedPath : Option String
  thumbnail : Option String
  mimeType : String
  sensitivityAnalysis : SensRecord
  deriving DecidableEq, Repr

/-- `videoSchema.methods.updateProgress` (Video.js 185-189):
`this.processingProgress = Math.min(100, Math.max(0, progress))`, and the
status is only assigned when one is passed. -/
def updateProgress (v : VideoRec) (p : ℤ) (newStatus : Option VStatus) : VideoRec :=
  { v with processingProgress := min 100 (max 0 p),
           status := newStatus.getD v.status }

/-- `video.sensitivityAnalysis = { ...video.sensitivityAnalysis, ...analysisResults }`
(users.js 1045-1048, 1445-1448): the spread of the engine results overwrites
status, result and confidence. -/
def mergeSens (_old : SensRecord) (r : SensitivityResults) : SensRecord :=
  { saStatus := r.status, result := some r.result, confidence := some r.confidence }

/-- The two shapes of result object `analyzeSensitivity` can return:
the success object built by `classifyResults` (videoProcessor.js 173-195)
or the catch-path failure object (232-249). -/
def EngineResult (r : SensitivityResults) : Prop :=
  (∃ analyses, r = classifyResults analyses) ∨ (∃ msg, r = engineFailureResults msg)

/-- The writes the source performs on the sensitivity sub-record:
* `start`: `video.sensitivityAnalysis.status = 'processing'` before an
  analysis pass (users.js 1033, 1438);
* `engineDone`: merging the engine's returned results (users.js 1045-1048,
  1445-1448);
* `pipelineFail`: `video.sensitivityAnalysis.status = 'failed'` in the
  pipeline catch block (users.js 1065). -/
inductive SensStep : SensRecord → SensRecord → Prop
  | start (s : SensRecord) :
      SensStep s { s with saStatus := SAStatus.processing }
  | engineDone (s : SensRecord) (r : SensitivityResults) (hr : EngineResult r) :
      SensStep s (mergeSens s r)
  | pipelineFail (s : SensRecord) :
      SensStep s { s with saStatus := SAStatus.failed }

/-- Sensitivity sub-records reachable from the schema defaults through the
writes the source performs. -/
inductive ReachableSens : SensRecord → Prop
  | init : ReachableSens initSensRecord
  | step {s t : SensRecord} : ReachableSens s → SensStep s t → ReachableSens t

/-- Oracle for one pipeline run: whether transcoding produces its artifact
and whether thumbnailing succeeds, plus the engine oracle. -/
structure PipelineOutcome where
  transcodeOk : Bool
  thumbnailOk : Bool
  engine : RunOutcome
  deriving DecidableEq, Repr

/-- The uploader's socket room, `user_${video.uploadedBy}` (users.js 987 etc.). -/
def roomOf (v : VideoRec) : Address := Address.room ("user_" ++ v.uploadedBy)

/-- A `video-processing-progress` emission addressed to the uploader's room. -/
def procProgressEv (v : VideoRec) (p : ℕ) : Emission :=
  { addr := roomOf v, videoId := v.id, kind := EventKind.procProgress p }

/-- `path.join(path.dirname(absoluteVideoPath), 'temp_frames', videoId.toString())`
(videoProcessor.js 95), modelled as a path-valued function of its inputs. -/
def framesDirOf (videoPath vid : String) : String :=
  videoPath ++ "/../temp_frames/" ++ vid

/-- `processVideoAsync(video, io)` (users.js 984-1074).  Metadata extraction
(videoProcessor.js 282-297) and thumbnailing (320-323) absorb their own
failures; a transcoding failure (343-349) throws into the catch block, which
sets status and sensitivity status to failed without touching
processingProgress.  The emit handle `io` is the one registered by the upload
route (`req.app.get('io')`, users.js 939), which is defined. -/
def processVideoAsync (v : VideoRec) (o : PipelineOutcome) (fs0 : List String) :
    VideoRec × List Emission :=
  let v1 := updateProgress v 10 (some VStatus.processing)
  let t1 : List Emission := [procProgressEv v 10]
  let v2 := updateProgress v1 20 none
  let t2 := t1 ++ [procProgressEv v 20]
  if o.transcodeOk = false then
    let vf := { v2 with status := VStatus.failed,
                        sensitivityAnalysis := { v2.sensitivityAnalysis with saStatus := SAStatus.failed } }
    (vf, t2 ++ [{ addr := roomOf v, videoId := v.id, kind := EventKind.procError }])
  else
    let v3 := updateProgress { v2 with optimizedPath := some ("uploads/optimized/" ++ v.id ++ ".mp4") } 40 none
    let t3 := t2 ++ [procProgressEv v 40]
    let v4 := updateProgress { v3 with thumbnail := if o.thumbnailOk then some "thumb.jpg" else none } 60 none
    let t4 := t3 ++ [procProgressEv v 60]
    let v5 := { v4 with sensitivityAnalysis := { v4.sensitivityAnalysis with saStatus := SAStatus.processing } }
    let t5 := t4 ++ [procProgressEv v 80]
    match analyzeSensitivityM true o.engine v.id (framesDirOf v.filePath v.id)
        { trace := t5, fs := fs0, framesDir := none } with
    | .error _ =>
        let vf := { v5 with status := VStatus.failed,
                            sensitivityAnalysis := { v5.sensitivityAnalysis with saStatus := SAStatus.failed } }
        (vf, t5 ++ [{ addr := roomOf v, videoId := v.id, kind := EventKind.procError }])
    | .ok (results, st) =>
        let v6 := updateProgress { v5 with sensitivityAnalysis := mergeSens v5.sensitivityAnalysis results }
                    100 (some VStatus.completed)
        (v6, st.trace ++ [{ addr := roomOf v, videoId := v.id, kind := EventKind.procComplete }])

/-- The requesting user as the stream route sees it (users.js 1213). -/
structure User where
  id : String
  organizationId : String
  role : Role
  deriving DecidableEq, Repr

/-- `videoSchema.methods.canBeViewedBy` (Video.js 169-183): public videos to
anyone, organization videos within the organization, private videos to the
uploader, and otherwise admins of the same organization. -/
def canBeViewedBy (v : VideoRec) (u : User) : Bool :=
  if v.visibility = Visibility.publicVis then true
  else if v.visibility = Visibility.organizationVis ∧ v.organizationId = u.organizationId then true
  else if v.visibility = Visibility.privateVis ∧ v.uploadedBy = u.id then true
  else decide (u.role = Role.admin ∧ v.organizationId = u.organizationId)

/-- The schema's status strings, for the 404 message interpolation (users.js 1231). -/
def statusStr : VStatus → String
  | .uploading => "uploading"
  | .processing => "processing"
  | .completed => "completed"
  | .failed => "failed"
  | .archived => "archived"

/-- A JS number that is either an integer or NaN (`parseInt` can yield NaN). -/
abbrev JsNum := Option ℤ

/-- Template-string rendering of such a number. -/
def jsNumStr : JsNum → String
  | none => "NaN"
  | some n => toString n

/-- Numeric value of a decimal digit character. -/
def digitVal (c : Char) : ℕ := c.toNat - 48

/-- Value of a digit string, most significant first. -/
def digitsValChars (l : List Char) : ℕ :=
  l.foldl (fun acc c => acc * 10 + digitVal c) 0

/-- The leading decimal-digit prefix of a character list. -/
def leadingDigits : List Char → List Char
  | [] => []
  | c :: rest => if c.isDigit then c :: leadingDigits rest else []

/-- `parseInt(s, 10)` restricted to the non-negative inputs the range parser
meets: the value of the leading digit prefix, or NaN when there is none. -/
def parseIntChars (l : List Char) : JsNum :=
  match leadingDigits l with
  | [] => none
  | ds => some ((digitsValChars ds : ℕ) : ℤ)

/-- Worker for `jsSplitChars`. -/
def jsSplitAux (sep : Char) : List Char → List Char → List (List Char)
  | [], acc => [acc.reverse]
  | c :: rest, acc =>
    if c = sep then acc.reverse :: jsSplitAux sep rest []
    else jsSplitAux sep rest (c :: acc)

/-- JS `String.prototype.split(sep)` for a one-character separator. -/
def jsSplitChars (sep : Char) (l : List Char) : List (List Char) :=
  jsSplitAux sep l []

/-- JS `String.prototype.replace('pat', '')` for a literal pattern: remove the
first occurrence. -/
def removeFirstOcc (pat : List Char) : List Char → List Char
  | [] => []
  | c :: rest =>
    if pat.isPrefixOf (c :: rest) then (c :: rest).drop pat.length
    else c :: removeFirstOcc pat rest

/-- What the route hands to `fs.createReadStream`: nothing, the whole file, or
a `{ start, end }` byte span (users.js 1269, 1290). -/
inductive Streamed
  | noBody
  | wholeFile
  | byteSpan (first last : JsNum)
  deriving DecidableEq, Repr

/-- The observable response of the stream route: status, JSON message when
any, the range-related headers, and what is streamed. -/
structure StreamResponse where
  status : ℕ
  message : Option String := none
  contentRange : Option String := none
  acceptRanges : Option String := none
  contentLength : Option JsNum := none
  contentType : Option String := none
  streamed : Streamed := Streamed.noBody
  deriving DecidableEq, Repr

/-- The collaborators the stream route consults: `jwt.verify` (`none` models a
thrown verification error), `User.findById`, `Video.findById`,
`fs.existsSync` and `fs.statSync(...).size` for the resolved artifact. -/
structure StreamEnv where
  verify : String → Option String
  findUser : String → Option User
  findVideo : String → Option VideoRec
  fileExists : Bool
  fileSize : ℕ

/-- The serving tail of the stream route (users.js 1252-1291): parse the Range
header by stripping `bytes=` and splitting on `-`; `start = parseInt(parts[0])`,
`end = parts[1] ? parseInt(parts[1]) : fileSize - 1`; respond 206 with
Content-Range/Accept-Ranges/Content-Length and stream that span, or 200 with
the whole file when no Range header is present. -/
def streamServe (fileSize : ℕ) (mime : String) (rangeHdr : Option String) : StreamResponse :=
  match rangeHdr with
  | none =>
    { status := 200,
      contentLength := some (some (fileSize : ℤ)),
      contentType := some mime,
      streamed := Streamed.wholeFile }
  | some range =>
    let parts := jsSplitChars '-' (removeFirstOcc "bytes=".data range.data)
    let first : JsNum := parseIntChars (parts.headD [])
    let last : JsNum :=
      match parts[1]? with
      | some p => if p = [] then some ((fileSize : ℤ) - 1) else parseIntChars p
      | none => some ((fileSize : ℤ) - 1)
    let chunksize : JsNum :=
      match first, last with
      | some a, some b => some (b - a + 1)
      | _, _ => none
    { status := 206,
      contentRange := some ("bytes " ++ jsNumStr first ++ "-" ++ jsNumStr last ++ "/" ++ toString fileSize),
      acceptRanges := some "bytes",
      contentLength := some chunksize,
      contentType := some mime,
      streamed := Streamed.byteSpan first last }

/-- `GET /:id/stream` (users.js 1203-1300).  The route does its own token
handling; a `jwt.verify` throw lands in the route's catch block, which
answers 500.  Checks, in order: token present, token verifies, user exists,
video exists, video active and completed (404 body names the status),
`canBeViewedBy`, artifact on disk, then range serving. -/
def streamHandler (env : StreamEnv) (token : Option String) (videoId : String)
    (rangeHdr : Option String) : StreamResponse :=
  match token with
  | none => { status := 401, message := some "Token required" }
  | some t =>
    match env.verify t with
    | none => { status := 500, message := some "Error streaming video" }
    | some uid =>
      match env.findUser uid with
      | none => { status := 401, message := some "User not found" }
      | some user =>
        match env.findVideo videoId with
        | none => { status := 404, message := some "Video not found" }
        | some video =>
          if video.isActive = false ∨ video.status ≠ VStatus.completed then
            { status := 404,
              message := some ("Video not ready for streaming. Status: " ++ statusStr video.status) }
          else if canBeViewedBy video user = false then
            { status := 403, message := some "Access denied to this video" }
          else if env.fileExists = false then
            { status := 404, message := some "Video file not found on disk" }
          else
            streamServe env.fileSize video.mimeType rangeHdr

/-- Modelled from the spec: the amended status contract of the stream route —
401 without a token, 500 when token verification throws, 401 when the token's
user no longer exists, 404 for a missing / inactive / not-completed video or a
missing artifact, 403 when the visibility check fails, otherwise 206 for range
requests and 200 for full requests. -/
def streamStatusAmended (env : StreamEnv) (token : Option String) (videoId : String)
    (rangeHdr : Option String) : ℕ :=
  match token with
  | none => 401
  | some t =>
    match env.verify t with
    | none => 500
    | some uid =>
      match env.findUser uid with
      | none => 401
      | some user =>
        match env.findVideo videoId with
        | none => 404
        | some video =>
          if video.isActive = false ∨ video.status ≠ VStatus.completed then 404
          else if canBeViewedBy video user = false then 403
          else if env.fileExists = false then 404
          else if rangeHdr.isSome then 206 else 200

/-- Value of a character list that is entirely decimal digits, else `none`. -/
def strictDigits (l : List Char) : Option ℕ :=
  if l ≠ [] ∧ ∀ c ∈ l, c.isDigit then some (digitsValChars l) else none

/-- Model of the JS `eval` call on `r_frame_rate` (videoProcessor.js 276),
covering the arithmetic-expression fragment relevant to probe strings:
sums of quotients of numerals are evaluated as code.  The full `eval`
evaluates arbitrary JavaScript; this fragment suffices to separate
expression evaluation from rational parsing. -/
def jsEvalNum (s : String) : Option ℚ :=
  let evalAtom : List Char → Option ℚ := fun a => (strictDigits a).map (fun n => (n : ℚ))
  let evalTerm : List Char → Option ℚ := fun t =>
    match (jsSplitChars '/' t).mapM evalAtom with
    | some (x :: xs) => some (xs.foldl (fun acc y => acc / y) x)
    | _ => none
  match (jsSplitChars '+' s.data).mapM evalTerm with
  | some (x :: xs) => some (xs.foldl (fun acc y => acc + y) x)
  | _ => none

/-- The `frameRate` field of `extractVideoMetadata` (videoProcessor.js 276):
`videoStream?.r_frame_rate ? eval(videoStream.r_frame_rate) : 0`; when the
evaluation throws, the outer catch (282-297) returns the zeroed default. -/
def frameRateFromProbe (rFrameRate : Option String) : ℚ :=
  match rFrameRate with
  | none => 0
  | some s =>
    match jsEvalNum s with
    | some v => v
    | none => 0

/-- Modelled from the spec: compute the frame rate from a rational string such
as `30000/1001` by parsing numerator and denominator and dividing numerically;
anything that is not `digits/digits` is rejected. -/
def frameRateSpecParse (s : String) : Option ℚ :=
  match jsSplitChars '/' s.data with
  | [a, b] =>
    match strictDigits a, strictDigits b with
    | some x, some y => some ((x : ℚ) / (y : ℚ))
    | _, _ => none
  | _ => none

/-- The app-level settings the server registers: `app.set('io', io)`
(server.js 73) is the only registration. -/
def serverAppSettings : List (String × Unit) := [("io", ())]

/-- `req.app.get(key)`. -/
def appGet (settings : List (String × Unit)) (k : String) : Option Unit :=
  settings.lookup k

/-- A plain JSON response of the reanalyze route. -/
structure HttpResponse where
  status : ℕ
  message : String
  deriving DecidableEq, Repr

/-- Observable outcome of one reanalyze request: the HTTP response, whether an
analysis run was started (the engine was invoked), and the last persisted
Video record. -/
structure ReanalyzeResult where
  response : HttpResponse
  startedAnalysis : Bool
  savedVideo : Option VideoRec
  deriving DecidableEq, Repr

/-- `POST /:id/reanalyze` (users.js 1428-1468): look the video up, set
`sensitivityAnalysis.status = 'processing'` and save, fetch the emit handle
under `req.app.get('socketio')`, run `analyzeSensitivity`, merge and save, or
answer 500 from the catch block when the engine throws. -/
def reanalyzeHandler (video : Option VideoRec) (o : RunOutcome) (fs0 : List String) :
    ReanalyzeResult :=
  match video with
  | none =>
    { response := { status := 404, message := "Video not found" },
      startedAnalysis := false, savedVideo := none }
  | some v0 =>
    let v1 := { v0 with sensitivityAnalysis :=
                  { v0.sensitivityAnalysis with saStatus := SAStatus.processing } }
    let sink := appGet serverAppSettings "socketio"
    match analyzeSensitivityM sink.isSome o v1.id (framesDirOf v1.filePath v1.id)
        { trace := [], fs := fs0, framesDir := none } with
    | .error _ =>
      { response := { status := 500, message := "Error re-analyzing video" },
        startedAnalysis := true, savedVideo := some v1 }
    | .ok (results, _) =>
      let v2 := { v1 with sensitivityAnalysis := mergeSens v1.sensitivityAnalysis results }
      { response := { status := 200, message := "Sensitivity analysis completed" },
        startedAnalysis := true, savedVideo := some v2 }

/-- Fixture: a frame analysis with suspicion score 0.8. -/
def faDemo : FrameAnalysis := { suspicionScore := 4/5, brightness := 100, contrast := 50 }

/-- Fixture: a viewer in organization org1. -/
def userDemo : User := { id := "u1", organizationId := "org1", role := Role.viewer }

/-- Fixture: a completed public video uploaded by u1. -/
def vDemo : VideoRec :=
  { id := "vid1", uploadedBy := "u1", organizationId := "org1",
    visibility := Visibility.publicVis, isActive := true, status := VStatus.completed,
    processingProgress := 0, filePath := "uploads/videos/a.mp4", optimizedPath := none,
    thumbnail := none, mimeType := "video/mp4", sensitivityAnalysis := initSensRecord }

/-- Fixture: an engine run whose frame extraction fails. -/
def failRun : RunOutcome := { extractOk := false, frames := [] }

/-- Fixture: an engine run extracting one frame that scores suspicion 0.5. -/
def okRun1 : RunOutcome := { extractOk := true, frames := [some (100, 50, 1/2)] }

/-- Fixture: an environment whose token verification always throws. -/
def envBadToken : StreamEnv :=
  { verify := fun _ => none, findUser := fun _ => none, findVideo := fun _ => none,
    fileExists := false, fileSize := 0 }

/-- Fixture: `vDemo` still processing. -/
def vProcessingDemo : VideoRec := { vDemo with status := VStatus.processing }

/-- Fixture: an environment that resolves to the still-processing video. -/
def envNotReady : StreamEnv :=
  { verify := fun _ => some "u1", findUser := fun _ => some userDemo,
    findVideo := fun _ => some vProcessingDemo, fileExists := true, fileSize := 1000 }

/-- Fixture: an environment serving the completed public video, 1000-byte artifact. -/
def envStreamDemo : StreamEnv :=
  { verify := fun _ => some "u1", findUser := fun _ => some userDemo,
    findVideo := fun _ => some vDemo, fileExists := true, fileSize := 1000 }

/-- Fixture: a pipeline run whose transcode stage fails. -/
def pipeFailDemo : PipelineOutcome :=
  { transcodeOk := false, thumbnailOk := true, engine := failRun }

/-- Fixture: a pipeline run whose transcode succeeds but whose engine
frame extraction fails. -/
def pipeOkFailEngine : PipelineOutcome :=
  { transcodeOk := true, thumbnailOk := true, engine := failRun }

/-- Fixture: `vDemo` with a sensitivity run currently in progress. -/
def vProcessingSens : VideoRec :=
  { vDemo with sensitivityAnalysis := { initSensRecord with saStatus := SAStatus.processing } }

/-! ## Helper lemmas -/

/-- `io.emit` on a defined handle appends the event. -/
theorem emitE_true (e : Emission) (st : EngineState) :
    emitE true e st = .ok ⟨st.trace ++ [e], st.fs, st.framesDir⟩ := rfl

/-- `io.emit` on an undefined handle throws. -/
theorem emitE_false (e : Emission) (st : EngineState) :
    emitE false e st = .error st := rfl

/-- With an undefined emit handle the engine's very first progress emit throws,
the catch block's own emit re-raises, and the whole call rejects. -/
theorem analyzeSensitivityM_false_throws (o : RunOutcome) (vid dir : String) (st0 : EngineState) :
    analyzeSensitivityM false o vid dir st0 = .error ⟨st0.trace, st0.fs, none⟩ := by
  simp [analyzeSensitivityM, engineBody, engineCatch, emitE]

/-! ## Claim theorems -/

/-- C2: the code computes `frameRate` by handing the probe's `r_frame_rate`
string to JS `eval`, which evaluates arbitrary arithmetic expressions — it
evaluates `1+1` to 2, which rational numerator/denominator parsing (the
spec's required behaviour, `frameRateSpecParse`) rejects.  On a genuine
rational string the two agree. -/
theorem c2_frame_rate_evaluates_code :
    frameRateFromProbe (some "1+1") = 2 ∧
    frameRateSpecParse "1+1" = none ∧
    frameRateFromProbe (some "30000/1001") = 30000 / 1001 ∧
    frameRateSpecParse "30000/1001" = some (30000 / 1001) := by
  have hs1 : jsSplitChars '+' "1+1".data = [['1'], ['1']] := by decide
  have hs2 : jsSplitChars '/' ['1'] = [['1']] := by decide
  have hs3 : jsSplitChars '+' "30000/1001".data =
      [['3', '0', '0', '0', '0', '/', '1', '0', '0', '1']] := by decide
  have hs4 : jsSplitChars '/' ['3', '0', '0', '0', '0', '/', '1', '0', '0', '1'] =
      [['3', '0', '0', '0', '0'], ['1', '0', '0', '1']] := by decide
  have hs5 : jsSplitChars '/' "1+1".data = [['1', '+', '1']] := by decide
  have hd1 : strictDigits ['1'] = some 1 := by decide
  have hd2 : strictDigits ['3', '0', '0', '0', '0'] = some 30000 := by decide
  have hd3 : strictDigits ['1', '0', '0', '1'] = some 1001 := by decide
  refine ⟨?_, ?_, ?_, ?_⟩
  · simp [frameRateFromProbe, jsEvalNum, hs1, hs2, hd1, List.mapM.loop]
    norm_num
  · simp [frameRateSpecParse, hs5]
  · simp [frameRateFromProbe, jsEvalNum, hs3, hs4, hd2, hd3, List.mapM.loop]
  · simp [frameRateSpecParse, hs4, hd2, hd3]

/-- C9 counterexample: the reanalyze route starts a new analysis run even when
the video's sensitivity status is already `processing`; no status check is
performed. -/
theorem c9_counterexample :
    vProcessingSens.sensitivityAnalysis.saStatus = SAStatus.processing ∧
    (reanalyzeHandler (some vProcessingSens) failRun []).startedAnalysis = true := by
  exact ⟨rfl, rfl⟩

/-- C9 amended: `POST /:id/reanalyze` performs no check of
`sensitivityAnalysis.status`; for every existing video — in particular one
whose status is already `processing` — it unconditionally overwrites the
status with `processing` and invokes a new analysis run. -/
theorem c9_amended_no_status_check (v : VideoRec) (o : RunOutcome) (fs0 : List String) :
    (reanalyzeHandler (some v) o fs0).startedAnalysis = true ∧
    (reanalyzeHandler (some v) o fs0).savedVideo =
      some { v with sensitivityAnalysis :=
               { v.sensitivityAnalysis with saStatus := SAStatus.processing } } := by
  have hsink : appGet serverAppSettings "socketio" = none := rfl
  simp [reanalyzeHandler, hsink, analyzeSensitivityM_false_throws]

/-- C10: the reanalyze route fetches the broadcast handle under the key
`socketio` although the server registered it under `io`, so the engine runs
with an undefined handle, throws out of its contract, and the route answers
500 from its catch block. -/
theorem c10_socketio_key_mismatch (v : VideoRec) (o : RunOutcome) (fs0 : List String) :
    appGet serverAppSettings "socketio" = none ∧
    analyzeSensitivityM false o v.id (framesDirOf v.filePath v.id) ⟨[], fs0, none⟩ =
      Except.error ⟨[], fs0, none⟩ ∧
    (reanalyzeHandler (some v) o fs0).response.status = 500 := by
  refine ⟨rfl, analyzeSensitivityM_false_throws o v.id (framesDirOf v.filePath v.id) ⟨[], fs0, none⟩, ?_⟩
  have hsink : appGet serverAppSettings "socketio" = none := rfl
  simp [reanalyzeHandler, hsink, analyzeSensitivityM_false_throws]

/-- C6: when the transcode stage fails, the pipeline halts — no thumbnail or
analysis stage runs and no later event is emitted — the record is left with
status failed and sensitivity status failed, and processingProgress keeps the
metadata checkpoint value 20 instead of being reset. -/
theorem c6_transcode_failure_freezes (v : VideoRec) (o : PipelineOutcome) (fs0 : List String)
    (hfail : o.transcodeOk = false) :
    (processVideoAsync v o fs0).1.status = VStatus.failed ∧
    (processVideoAsync v o fs0).1.sensitivityAnalysis.saStatus = SAStatus.failed ∧
    (processVideoAsync v o fs0).1.processingProgress = 20 ∧
    (processVideoAsync v o fs0).1.optimizedPath = v.optimizedPath ∧
    (processVideoAsync v o fs0).1.thumbnail = v.thumbnail ∧
    (processVideoAsync v o fs0).2 =
      [procProgressEv v 10, procProgressEv v 20,
       { addr := roomOf v, videoId := v.id, kind := EventKind.procError }] := by
  simp [processVideoAsync, hfail, updateProgress]

/-- C6 witness: a concrete transcode failure. -/
theorem c6_transcode_failure_witness :
    (processVideoAsync vDemo pipeFailDemo []).1.status = VStatus.failed ∧
    (processVideoAsync vDemo pipeFailDemo []).1.processingProgress = 20 := by
  have h := c6_transcode_failure_freezes vDemo pipeFailDemo [] rfl
  exact ⟨h.1, h.2.2.1⟩

/-- C4 counterexample: a request carrying a token that fails verification is
answered 500 (the `jwt.verify` throw lands in the route's own catch block),
not 401 as claimed. -/
theorem c4_counterexample :
    (streamHandler envBadToken (some "malformed-token") "vid1" none).status = 500 ∧
    (streamHandler envBadToken (some "malformed-token") "vid1" none).status ≠ 401 := by
  exact ⟨rfl, by decide⟩

/-- C4 amended: the stream route's statuses are — 401 without a token, 500
when token verification throws (the route's own catch block answers, not the
401 error middleware), 401 when the token's user no longer exists, 404 for a
missing video, for an inactive or not-completed video (with the body naming
the current status), or for a missing artifact, 403 when the visibility check
fails, and otherwise the serving statuses 206/200. -/
theorem c4_amended_statuses (env : StreamEnv) (token : Option String) (videoId : String)
    (rangeHdr : Option String) :
    (streamHandler env token videoId rangeHdr).status =
      streamStatusAmended env token videoId rangeHdr ∧
    (∀ t uid user video, token = some t → env.verify t = some uid →
      env.findUser uid = some user → env.findVideo videoId = some video →
      (video.isActive = false ∨ video.status ≠ VStatus.completed) →
      (streamHandler env token videoId rangeHdr).message =
        some ("Video not ready for streaming. Status: " ++ statusStr video.status)) := by
  constructor
  · cases token with
    | none => rfl
    | some t =>
      simp only [streamHandler, streamStatusAmended]
      cases env.verify t with
      | none => rfl
      | some uid =>
        dsimp only
        cases env.findUser uid with
        | none => rfl
        | some user =>
          dsimp only
          cases env.findVideo videoId with
          | none => rfl
          | some video =>
            dsimp only
            by_cases hready : video.isActive = false ∨ video.status ≠ VStatus.completed
            · simp [hready]
            · by_cases hview : canBeViewedBy video user = false
              · simp [hready, hview]
              · by_cases hfile : env.fileExists = false
                · simp [hready, hview, hfile]
                · cases rangeHdr <;> simp [hready, hview, hfile, streamServe]
  · intro t uid user video ht hv hu hvid hready
    subst ht
    simp [streamHandler, hv, hu, hvid, hready]

/-- C4 amended witness: a request for a still-processing video is answered 404
with the body naming the status. -/
theorem c4_amended_witness :
    (streamHandler envNotReady (some "tok") "vid1" none).message =
      some ("Video not ready for streaming. Status: " ++ statusStr VStatus.processing) := by
  have h := (c4_amended_statuses envNotReady (some "tok") "vid1" none).2 "tok" "u1" userDemo
    vProcessingDemo rfl rfl rfl rfl (Or.inr (by decide))
  simpa using h

/-- C3 counterexample: the state reached by a failed engine run is reachable
and has `result = some safe` and `confidence = some 0` while its status is
`failed`, refuting "result and confidence are set iff status = completed"
and in particular "a failed analysis run leaves both unset". -/
theorem c3_counterexample :
    ReachableSens { saStatus := SAStatus.failed, result := some SensResult.safe,
                    confidence := some (0 : ℚ) } ∧
    ¬ (∀ s, ReachableSens s →
        ((s.result.isSome ∧ s.confidence.isSome) ↔ s.saStatus = SAStatus.completed)) := by
  have h1 : ReachableSens { initSensRecord with saStatus := SAStatus.processing } :=
    ReachableSens.step ReachableSens.init (SensStep.start _)
  have h2 : ReachableSens (mergeSens { initSensRecord with saStatus := SAStatus.processing }
      (engineFailureResults "analysis error")) :=
    ReachableSens.step h1
      (SensStep.engineDone _ (engineFailureResults "analysis error") (Or.inr ⟨_, rfl⟩))
  have hreach : ReachableSens
      { saStatus := SAStatus.failed, result := some SensResult.safe,
        confidence := some (0 : ℚ) } := h2
  refine ⟨hreach, fun hall => ?_⟩
  have := (hall _ hreach).mp (by simp)
  exact absurd this (by decide)

/-- C3 amended: in every reachable state, `status = completed` implies both
result and confidence are set; but a failed engine run does not leave them
unset — merging its failure results yields status failed with
`result = some safe` and `confidence = some 0`. -/
theorem c3_amended_result_confidence (s : SensRecord) (hs : ReachableSens s) :
    (s.saStatus = SAStatus.completed → s.result.isSome ∧ s.confidence.isSome) ∧
    (∀ s0 msg, (mergeSens s0 (engineFailureResults msg)).saStatus = SAStatus.failed ∧
      (mergeSens s0 (engineFailureResults msg)).result = some SensResult.safe ∧
      (mergeSens s0 (engineFailureResults msg)).confidence = some 0) := by
  refine ⟨?_, fun s0 msg => by simp [mergeSens, engineFailureResults]⟩
  induction hs with
  | init => intro h; exact absurd h (by decide)
  | step hs hstep ih =>
    cases hstep with
    | start => intro h; exact absurd h (by simp)
    | engineDone r hr => intro _; simp [mergeSens]
    | pipelineFail => intro h; exact absurd h (by simp)

/-- C3 amended witness: a reachable completed state has both fields set. -/
theorem c3_amended_witness :
    (mergeSens initSensRecord (classifyResults [faDemo])).result.isSome ∧
    (mergeSens initSensRecord (classifyResults [faDemo])).confidence.isSome := by
  have hr : ReachableSens (mergeSens initSensRecord (classifyResults [faDemo])) :=
    ReachableSens.step ReachableSens.init
      (SensStep.engineDone _ _ (Or.inl ⟨[faDemo], rfl⟩))
  exact (c3_amended_result_confidence _ hr).1 (by simp [mergeSens, classifyResults])

/-- C1: for a non-empty list of scored frames, with avgSuspicion the mean
suspicion score and highRatio the fraction of scored frames whose suspicion
exceeds 0.6, the classification is: flagged with confidence
min(avgSuspicion, 0.9) when avgSuspicion > 0.7 or highRatio > 0.3; else
under-review with confidence min(avgSuspicion·0.8, 0.7) when
avgSuspicion > 0.4 or a high-suspicion frame exists; else safe with
confidence max(0.85, 0.98 − avgSuspicion); the stored confidence is the
two-decimal rounding (`round2`) of those values. -/
theorem c1_classification_matches_spec
    (analyses : List FrameAnalysis) (avgSuspicion highRatio : ℚ)
    (hne : analyses ≠ [])
    (havg : avgSuspicion = totalSuspicionOf analyses / (analyses.length : ℚ))
    (hhr : highRatio = (highCountOf analyses : ℚ) / (analyses.length : ℚ)) :
    (classifyResults analyses).status = SAStatus.completed ∧
    ((avgSuspicion > 7/10 ∨ highRatio > 3/10) →
      (classifyResults analyses).result = SensResult.flagged ∧
      (classifyResults analyses).confidence = round2 (min avgSuspicion (9/10))) ∧
    (¬ (avgSuspicion > 7/10 ∨ highRatio > 3/10) →
      (avgSuspicion > 2/5 ∨ 0 < highCountOf analyses) →
      (classifyResults analyses).result = SensResult.underReview ∧
      (classifyResults analyses).confidence = round2 (min (avgSuspicion * (4/5)) (7/10))) ∧
    (¬ (avgSuspicion > 7/10 ∨ highRatio > 3/10) →
      ¬ (avgSuspicion > 2/5 ∨ 0 < highCountOf analyses) →
      (classifyResults analyses).result = SensResult.safe ∧
      (classifyResults analyses).confidence = round2 (max (17/20) (49/50 - avgSuspicion))) := by
  subst havg hhr
  have hn : (0 : ℚ) < (analyses.length : ℚ) := by
    exact_mod_cast List.length_pos.mpr hne
  have hrat : ((highCountOf analyses : ℚ) / (analyses.length : ℚ) > 3/10)
      ↔ ((highCountOf analyses : ℚ) > (analyses.length : ℚ) * (3/10)) := by
    rw [gt_iff_lt, lt_div_iff₀ hn, mul_comm]
  have hcond :
      ((totalSuspicionOf analyses / (analyses.length : ℚ) > 7/10) ∨
        (highCountOf analyses : ℚ) / (analyses.length : ℚ) > 3/10)
      ↔ ((totalSuspicionOf analyses / (analyses.length : ℚ) > 7/10) ∨
        (highCountOf analyses : ℚ) > (analyses.length : ℚ) * (3/10)) :=
    or_congr Iff.rfl hrat
  refine ⟨by simp [classifyResults], ?_, ?_, ?_⟩
  · intro hcl
    have hc := hcond.mp hcl
    simp only [classifyResults, classifyPair]
    rw [if_pos hc]
    exact ⟨rfl, rfl⟩
  · intro hcl hsecond
    have hc := (not_congr hcond).mp hcl
    simp only [classifyResults, classifyPair]
    rw [if_neg hc, if_pos hsecond]
    exact ⟨rfl, rfl⟩
  · intro hcl hsecond
    have hc := (not_congr hcond).mp hcl
    simp only [classifyResults, classifyPair]
    rw [if_neg hc, if_neg hsecond]
    exact ⟨rfl, rfl⟩

/-- C1 witness: one frame with suspicion 0.8 is flagged with confidence
rounded from min(0.8, 0.9). -/
theorem c1_classification_witness :
    (classifyResults [faDemo]).result = SensResult.flagged ∧
    (classifyResults [faDemo]).confidence = round2 (min (4/5) (9/10)) := by
  have h := c1_classification_matches_spec [faDemo] (4/5) 1 (by simp)
    (by norm_num [totalSuspicionOf, faDemo])
    (by norm_num [highCountOf, faDemo, List.filter])
  exact h.2.1 (by norm_num)

/-- The scoring loop with a defined handle always succeeds, leaves the
filesystem and `framesDir` untouched, and appends only broadcast engine
events to the trace. -/
theorem scoreLoop_true_spec (vid : String) (total : ℕ) (frames : List (Option (ℚ × ℚ × ℚ))) :
    ∀ (processed : ℕ) (acc : List FrameAnalysis) (st : EngineState),
      ∃ acc2 extra, scoreLoop true vid total frames processed acc st =
          .ok (acc2, ⟨st.trace ++ extra, st.fs, st.framesDir⟩) ∧
        ∀ e ∈ extra, isEngineEv e.kind = true ∧ e.addr = Address.broadcast := by
  induction frames with
  | nil =>
    intro processed acc st
    exact ⟨acc, [], by simp [scoreLoop], by simp⟩
  | cons f rest ih =>
    intro processed acc st
    obtain ⟨acc2, extra, heq, hall⟩ := ih (processed + 1)
      (match f with
        | some (b, c, r) => acc ++ [analyzeFrame b c r]
        | none => acc)
      ⟨st.trace ++ [sensProgressEv vid (40 + round (((processed + 1 : ℕ) : ℚ) / (total : ℚ) * 40))],
        st.fs, st.framesDir⟩
    refine ⟨acc2,
      sensProgressEv vid (40 + round (((processed + 1 : ℕ) : ℚ) / (total : ℚ) * 40)) :: extra,
      ?_, ?_⟩
    · simp only [scoreLoop, emitE_true]
      rw [heq]
      simp
    · intro e he
      rcases List.mem_cons.mp he with h | h
      · subst h; exact ⟨rfl, rfl⟩
      · exact hall e h

/-- An engine run with a defined handle always returns (never throws), removes
the scratch directory it created from the filesystem on every return path, and
appends only broadcast engine events to the trace. -/
theorem analyzeSensitivityM_true_spec (o : RunOutcome) (vid dir : String) (st : EngineState) :
    ∃ r extra, analyzeSensitivityM true o vid dir st =
        .ok (r, ⟨st.trace ++ extra, rmdirRec dir (mkdirRec dir st.fs), some dir⟩) ∧
      ∀ e ∈ extra, isEngineEv e.kind = true ∧ e.addr = Address.broadcast := by
  by_cases hex : o.extractOk = false
  · refine ⟨engineFailureResults "analysis error",
      [sensProgressEv vid 0, sensProgressEv vid 10, sensProgressEv vid 20,
        ⟨Address.broadcast, vid, EventKind.sensError⟩], ?_, ?_⟩
    · simp [analyzeSensitivityM, engineBody, engineCatch, emitE_true, hex]
    · intro e he
      rcases List.mem_cons.mp he with h | h
      · subst h; exact ⟨rfl, rfl⟩
      rcases List.mem_cons.mp h with h | h
      · subst h; exact ⟨rfl, rfl⟩
      rcases List.mem_cons.mp h with h | h
      · subst h; exact ⟨rfl, rfl⟩
      rcases List.mem_cons.mp h with h | h
      · subst h; exact ⟨rfl, rfl⟩
      · exact absurd h (by simp)
  · have hex2 : o.extractOk = true := by simpa using hex
    by_cases hfr : o.frames = []
    · refine ⟨engineFailureResults "analysis error",
        [sensProgressEv vid 0, sensProgressEv vid 10, sensProgressEv vid 20,
          ⟨Address.broadcast, vid, EventKind.sensError⟩], ?_, ?_⟩
      · simp [analyzeSensitivityM, engineBody, engineCatch, emitE_true, hex2, hfr]
      · intro e he
        rcases List.mem_cons.mp he with h | h
        · subst h; exact ⟨rfl, rfl⟩
        rcases List.mem_cons.mp h with h | h
        · subst h; exact ⟨rfl, rfl⟩
        rcases List.mem_cons.mp h with h | h
        · subst h; exact ⟨rfl, rfl⟩
        rcases List.mem_cons.mp h with h | h
        · subst h; exact ⟨rfl, rfl⟩
        · exact absurd h (by simp)
    · obtain ⟨acc2, extra, heq, hall⟩ := scoreLoop_true_spec vid o.frames.length o.frames 0 []
        ⟨st.trace ++ [sensProgressEv vid 0, sensProgressEv vid 10, sensProgressEv vid 20,
          sensProgressEv vid 40], mkdirRec dir st.fs, some dir⟩
      refine ⟨classifyResults acc2,
        [sensProgressEv vid 0, sensProgressEv vid 10, sensProgressEv vid 20,
          sensProgressEv vid 40] ++ extra ++
          [sensProgressEv vid 85, ⟨Address.broadcast, vid, EventKind.sensComplete⟩], ?_, ?_⟩
      · simp [analyzeSensitivityM, engineBody, emitE_true, hex2, hfr, heq]
      · intro e he
        rcases List.mem_append.mp he with h | h
        · rcases List.mem_append.mp h with h | h
          · rcases List.mem_cons.mp h with h | h
            · subst h; exact ⟨rfl, rfl⟩
            rcases List.mem_cons.mp h with h | h
            · subst h; exact ⟨rfl, rfl⟩
            rcases List.mem_cons.mp h with h | h
            · subst h; exact ⟨rfl, rfl⟩
            rcases List.mem_cons.mp h with h | h
            · subst h; exact ⟨rfl, rfl⟩
            · exact absurd h (by simp)
          · exact hall e h
        · rcases List.mem_cons.mp h with h | h
          · subst h; exact ⟨rfl, rfl⟩
          rcases List.mem_cons.mp h with h | h
          · subst h; exact ⟨rfl, rfl⟩
          · exact absurd h (by simp)

/-- C8: whenever the engine returns (success or handled failure), the scratch
frames directory it created no longer exists in the resulting filesystem
state. -/
theorem c8_scratch_dir_removed (sinkOk : Bool) (o : RunOutcome) (vid dir : String)
    (st0 : EngineState) (fsOut : List String)
    (hret : runFS (analyzeSensitivityM sinkOk o vid dir st0) = some fsOut) :
    dir ∉ fsOut := by
  cases sinkOk with
  | false =>
    rw [analyzeSensitivityM_false_throws] at hret
    exact absurd hret (by simp [runFS])
  | true =>
    obtain ⟨r, extra, heq, hall⟩ := analyzeSensitivityM_true_spec o vid dir st0
    rw [heq] at hret
    simp only [runFS, Option.some.injEq] at hret
    subst hret
    simp [rmdirRec, List.mem_filter]

/-- C8 witness: a concrete successful run leaves no scratch directory. -/
theorem c8_scratch_dir_removed_witness : "d" ∉ ([] : List String) := by
  exact c8_scratch_dir_removed true okRun1 "vid1" "d" ⟨[], [], none⟩ [] (by decide)

/-- C7 counterexample: a pipeline run publishes an event (the engine's first
progress event) that is not addressed to the owner's room and is delivered to
an arbitrary other listener, because the engine publishes through the
unaddressed `io.emit`. -/
theorem c7_counterexample :
    ∃ e ∈ (processVideoAsync vDemo pipeOkFailEngine []).2,
      e.addr ≠ roomOf vDemo ∧ deliveredTo e "user_intruder" = true := by
  refine ⟨sensProgressEv "vid1" 0, by decide, by decide, by decide⟩

/-- C7 amended: pipeline-orchestrator events are addressed to the uploader's
room, but the sensitivity-engine events emitted inside `analyzeSensitivity`
are published unaddressed (broadcast) and hence delivered to every connected
listener, not only to the owner. -/
theorem c7_amended_engine_events_broadcast (v : VideoRec) (o : PipelineOutcome)
    (fs0 : List String) :
    ∀ e ∈ (processVideoAsync v o fs0).2,
      e.addr = (if isEngineEv e.kind then Address.broadcast else roomOf v) ∧
      (e.addr = Address.broadcast → ∀ listenerRoom, deliveredTo e listenerRoom = true) := by
  intro e he
  have hdeliv : e.addr = Address.broadcast → ∀ listenerRoom, deliveredTo e listenerRoom = true := by
    intro h r; simp [deliveredTo, h]
  refine ⟨?_, hdeliv⟩
  by_cases htr : o.transcodeOk = false
  · simp only [processVideoAsync, htr, if_pos, List.append_assoc, List.singleton_append,
      List.cons_append, List.nil_append] at he
    simp only [List.mem_cons, List.not_mem_nil, or_false] at he
    rcases he with h | h | h <;> subst h <;> rfl
  · obtain ⟨r, extra, heq, hall⟩ := analyzeSensitivityM_true_spec o.engine v.id
      (framesDirOf v.filePath v.id)
      ⟨[procProgressEv v 10, procProgressEv v 20, procProgressEv v 40, procProgressEv v 60,
        procProgressEv v 80], fs0, none⟩
    simp only [processVideoAsync, List.append_assoc, List.singleton_append,
      List.cons_append, List.nil_append] at he
    rw [if_neg htr] at he
    rw [heq] at he
    simp only [List.mem_append, List.mem_cons, List.not_mem_nil, or_false] at he
    rcases he with ((h | h | h | h | h) | h) | h
    · subst h; rfl
    · subst h; rfl
    · subst h; rfl
    · subst h; rfl
    · subst h; rfl
    · have hb := hall e h
      simp [hb.1, hb.2]
    · subst h; rfl

/-- C7 amended witness: the engine's first progress event in a concrete run is
broadcast. -/
theorem c7_amended_witness :
    (sensProgressEv "vid1" 0).addr =
      (if isEngineEv (sensProgressEv "vid1" 0).kind then Address.broadcast
        else roomOf vDemo) := by
  exact ((c7_amended_engine_events_broadcast vDemo pipeOkFailEngine []) _ (by decide)).1

/-- Splitting a separator-free list yields the list itself. -/
theorem jsSplitAux_not_mem (sep : Char) (l : List Char) :
    ∀ acc, sep ∉ l → jsSplitAux sep l acc = [acc.reverse ++ l] := by
  induction l with
  | nil => intro acc _; simp [jsSplitAux]
  | cons c rest ih =>
    intro acc h
    have hc : ¬ c = sep := by
      intro e; exact h (by simp [e])
    have hr : sep ∉ rest := fun hm => h (List.mem_cons_of_mem _ hm)
    simp only [jsSplitAux, if_neg hc]
    rw [ih (c :: acc) hr]
    simp

/-- Splitting around the first separator occurrence. -/
theorem jsSplitAux_sep_append (sep : Char) (l1 : List Char) :
    ∀ (acc l2 : List Char), sep ∉ l1 →
      jsSplitAux sep (l1 ++ sep :: l2) acc = (acc.reverse ++ l1) :: jsSplitAux sep l2 [] := by
  induction l1 with
  | nil => intro acc l2 _; simp [jsSplitAux]
  | cons c rest ih =>
    intro acc l2 h
    have hc : ¬ c = sep := by
      intro e; exact h (by simp [e])
    have hr : sep ∉ rest := fun hm => h (List.mem_cons_of_mem _ hm)
    simp only [List.cons_append, jsSplitAux, if_neg hc, List.append_eq]
    rw [ih (c :: acc) l2 hr]
    simp

/-- JS split of `l1 ++ sep :: l2` with separator-free halves. -/
theorem jsSplitChars_pair (sep : Char) (l1 l2 : List Char) (h1 : sep ∉ l1) (h2 : sep ∉ l2) :
    jsSplitChars sep (l1 ++ sep :: l2) = [l1, l2] := by
  unfold jsSplitChars
  rw [jsSplitAux_sep_append sep l1 [] l2 h1, jsSplitAux_not_mem sep l2 [] h2]
  simp

/-- Removing the first occurrence of a leading pattern drops it. -/
theorem removeFirstOcc_of_prefix (pat rest : List Char) (hne : pat ≠ []) :
    removeFirstOcc pat (pat ++ rest) = rest := by
  cases pat with
  | nil => exact absurd rfl hne
  | cons p ps =>
    have hpre : (p :: ps).isPrefixOf ((p :: ps) ++ rest) = true := by
      rw [List.isPrefixOf_iff_prefix]
      exact (p :: ps).prefix_append rest
    rw [List.cons_append]
    simp only [removeFirstOcc]
    rw [← List.cons_append, if_pos hpre, List.drop_left]

/-- Digit lists are preserved by the leading-digit scan. -/
theorem leadingDigits_of_digits (l : List Char) (h : ∀ c ∈ l, c.isDigit) :
    leadingDigits l = l := by
  induction l with
  | nil => rfl
  | cons c rest ih =>
    have hc : c.isDigit := h c (List.mem_cons_self c rest)
    have hr := ih (fun x hx => h x (List.mem_cons_of_mem _ hx))
    simp [leadingDigits, hc, hr]

/-- `parseInt` on a non-empty all-digit string yields its value. -/
theorem parseIntChars_digits (l : List Char) (hne : l ≠ []) (h : ∀ c ∈ l, c.isDigit) :
    parseIntChars l = some ((digitsValChars l : ℕ) : ℤ) := by
  unfold parseIntChars
  rw [leadingDigits_of_digits l h]
  cases l with
  | nil => exact absurd rfl hne
  | cons c rest => rfl

/-- A dash is not a digit. -/
theorem not_dash_of_digits (l : List Char) (h : ∀ c ∈ l, c.isDigit) : '-' ∉ l := by
  intro hm
  exact absurd (h '-' hm) (by decide)

/-- C5: under the serving preconditions, a `Range: bytes=start-end` header
yields 206 with `Content-Range: bytes start-end/size`, `Accept-Ranges: bytes`,
`Content-Length: end-start+1` and exactly that byte span streamed; an omitted
end defaults to fileSize−1; no Range header yields 200 with the full length
and the whole file streamed. -/
theorem c5_range_serving
    (env : StreamEnv) (t videoId uid : String) (user : User) (video : VideoRec)
    (hv : env.verify t = some uid) (hu : env.findUser uid = some user)
    (hvid : env.findVideo videoId = some video)
    (hact : video.isActive = true) (hst : video.status = VStatus.completed)
    (hview : canBeViewedBy video user = true) (hfile : env.fileExists = true) :
    (∀ ds es : List Char, ds ≠ [] → es ≠ [] →
      (∀ c ∈ ds, c.isDigit) → (∀ c ∈ es, c.isDigit) →
      streamHandler env (some t) videoId (some (String.mk ("bytes=".data ++ ds ++ '-' :: es))) =
        { status := 206,
          contentRange := some ("bytes " ++ toString ((digitsValChars ds : ℕ) : ℤ) ++ "-" ++
            toString ((digitsValChars es : ℕ) : ℤ) ++ "/" ++ toString env.fileSize),
          acceptRanges := some "bytes",
          contentLength := some (some (((digitsValChars es : ℕ) : ℤ) -
            ((digitsValChars ds : ℕ) : ℤ) + 1)),
          contentType := some video.mimeType,
          streamed := Streamed.byteSpan (some ((digitsValChars ds : ℕ) : ℤ))
            (some ((digitsValChars es : ℕ) : ℤ)) }) ∧
    (∀ ds : List Char, ds ≠ [] → (∀ c ∈ ds, c.isDigit) →
      streamHandler env (some t) videoId (some (String.mk ("bytes=".data ++ ds ++ ['-']))) =
        { status := 206,
          contentRange := some ("bytes " ++ toString ((digitsValChars ds : ℕ) : ℤ) ++ "-" ++
            toString ((env.fileSize : ℤ) - 1) ++ "/" ++ toString env.fileSize),
          acceptRanges := some "bytes",
          contentLength := some (some (((env.fileSize : ℤ) - 1) -
            ((digitsValChars ds : ℕ) : ℤ) + 1)),
          contentType := some video.mimeType,
          streamed := Streamed.byteSpan (some ((digitsValChars ds : ℕ) : ℤ))
            (some ((env.fileSize : ℤ) - 1)) }) ∧
    streamHandler env (some t) videoId none =
      { status := 200, contentLength := some (some (env.fileSize : ℤ)),
        contentType := some video.mimeType, streamed := Streamed.wholeFile } := by
  have hred : ∀ r, streamHandler env (some t) videoId r =
      streamServe env.fileSize video.mimeType r := by
    intro r
    simp [streamHandler, hv, hu, hvid, hact, hst, hview, hfile]
  refine ⟨?_, ?_, ?_⟩
  · intro ds es hds hes hdigd hdige
    rw [hred]
    have hsplit : jsSplitChars '-' (removeFirstOcc "bytes=".data
        (String.mk ("bytes=".data ++ ds ++ '-' :: es)).data) = [ds, es] := by
      have hdata : (String.mk ("bytes=".data ++ ds ++ '-' :: es)).data =
          "bytes=".data ++ (ds ++ '-' :: es) := rfl
      rw [hdata, removeFirstOcc_of_prefix _ _ (by simp)]
      exact jsSplitChars_pair '-' ds es (not_dash_of_digits ds hdigd) (not_dash_of_digits es hdige)
    simp only [streamServe]
    rw [hsplit]
    simp only [List.headD_cons, List.getElem?_cons_succ, List.getElem?_cons_zero]
    rw [if_neg hes, parseIntChars_digits ds hds hdigd, parseIntChars_digits es hes hdige]
    rfl
  · intro ds hds hdigd
    rw [hred]
    have hsplit : jsSplitChars '-' (removeFirstOcc "bytes=".data
        (String.mk ("bytes=".data ++ ds ++ ['-'])).data) = [ds, []] := by
      have hdata : (String.mk ("bytes=".data ++ ds ++ ['-'])).data =
          "bytes=".data ++ (ds ++ '-' :: []) := rfl
      rw [hdata, removeFirstOcc_of_prefix _ _ (by simp)]
      exact jsSplitChars_pair '-' ds [] (not_dash_of_digits ds hdigd) (by simp)
    simp only [streamServe]
    rw [hsplit]
    simp only [List.headD_cons, List.getElem?_cons_succ, List.getElem?_cons_zero]
    rw [parseIntChars_digits ds hds hdigd]
    simp [jsNumStr]
  · rw [hred]
    rfl

/-- C5 witness: `bytes=0-99` on a 1000-byte artifact yields 206 with
`Content-Range: bytes 0-99/1000` and `Content-Length: 100`; no Range header
yields 200 with the full length. -/
theorem c5_range_serving_witness :
    streamHandler envStreamDemo (some "tok") "vid1" (some "bytes=0-99") =
      { status := 206, contentRange := some "bytes 0-99/1000",
        acceptRanges := some "bytes", contentLength := some (some 100),
        contentType := some "video/mp4",
        streamed := Streamed.byteSpan (some 0) (some 99) } ∧
    streamHandler envStreamDemo (some "tok") "vid1" none =
      { status := 200, contentLength := some (some 1000),
        contentType := some "video/mp4", streamed := Streamed.wholeFile } := by
  have h := c5_range_serving envStreamDemo "tok" "vid1" "u1" userDemo vDemo
    rfl rfl rfl rfl rfl (by decide) rfl
  constructor
  · have h1 := h.1 ['0'] ['9', '9'] (by simp) (by simp) (by decide) (by decide)
    have hstr : String.mk ("bytes=".data ++ ['0'] ++ '-' :: ['9', '9']) = "bytes=0-99" := rfl
    rw [hstr] at h1
    exact h1.trans (by decide)
  · exact h.2.2.trans (by decide)

end Pulsegen
